import Mathlib

/-!
Shallow embedding of the nixterm-rs terminfo core: the binary-format parser
(`split_terminfo`), the owned buffer (`TermInfoBuf`), the byte utilities
(`strlen`, `has_null_byte`, `read_le_u16`), and the parameterised-string
language (parser, printf-subset formatter, stack executor).

Conventions:
* Rust byte slices `&[u8]` are `List Nat`; the u8 range is enforced where a
  byte is assembled into a machine word (`% 256` in `wordOf`).
* Machine integers are `Nat`/`Int` with explicit modular wrapping where the
  source relies on it (`usize` word arithmetic in `has_null_byte`).
* Fallible Rust code returning `Result<T>` is embedded as `Res T`; a Rust
  runtime panic (out-of-bounds index, usize underflow, integer division by
  zero) is the distinguished outcome `Res.panicked`.
* The Rust `Parser` is a pull iterator that the executor drains; its
  instruction stream equals the eagerly parsed list (each refill appends to
  an internal queue before anything is popped), so parsing is embedded as a
  function from the source bytes to the full instruction list.  The parser's
  recursion is bounded by a fuel argument; every Rust step consumes source
  bytes, so fuel `src.length + 1` is always sufficient and all theorems below
  evaluate with that fuel.
-/

namespace Nixterm

/-- Error kinds of `errors.rs` (terminfo crate) used by the embedded core. -/
inductive ErrorKind where
  | InvalidMagicNumber
  | IncompleteTermInfo
  | MaxStrTabSizeReached
  | OutOfRange (offset len : Nat)
  | IncompleteTermInfoHeader
  | IncompleteExtendedTermInfo
  | IncompleteExtendedHeader
  | MaximumCapabilityCountExceeded
  | BadPrintfSpecifier
  | BadPrecisionSpecified
  | InvalidDigit (b : Nat)
  | InvalidArgumentIdentifier
  | UnexpectedArgumentType (expected got : String)
  | UnexpectedEof
  | FailedToReadStringFromTable
  deriving DecidableEq, Repr

/-- Outcome of running embedded Rust code: a value, a typed error value, or a
runtime panic (`Res.panicked` marks aborts such as slice-index out of bounds,
usize underflow, or integer division by zero). -/
inductive Res (α : Type) where
  | ok (a : α)
  | err (k : ErrorKind)
  | panicked
  deriving DecidableEq, Repr

def Res.bind {α β : Type} : Res α → (α → Res β) → Res β
  | .ok a, f => f a
  | .err k, _ => .err k
  | .panicked, _ => .panicked

instance : Monad Res where
  pure := .ok
  bind := .bind

/-! ## util.rs (terminfo crate): word-at-a-time `strlen` -/

/-- `WORD_SIZE = size_of::<usize>()` on the 64-bit targets the crate is built
for. -/
def WORD_SIZE : Nat := 8

def USIZE_MOD : Nat := 2 ^ 64

/-- `const HI_BITS: usize = (isize::min_value() as usize) / 255;`
(note: this is `0x0080808080808080`, not the full `0x8080808080808080`). -/
def HI_BITS : Nat := 2 ^ 63 / 255

/-- `const LO_BITS: usize = HI_BITS >> 7;` -/
def LO_BITS : Nat := HI_BITS >>> 7

/-- Rust `!num` on `usize`. -/
def usize_not (n : Nat) : Nat := (USIZE_MOD - 1) - n

/-- `num.wrapping_sub(LO_BITS) & !num & HI_BITS != 0` from `has_null_byte`. -/
def has_null_byte (num : Nat) : Bool :=
  decide (((num + USIZE_MOD - LO_BITS) % USIZE_MOD &&& usize_not num &&& HI_BITS) ≠ 0)

/-- `find_zero`: byte-by-byte scan; index of the first 0, or the length. -/
def find_zero : List Nat → Nat
  | [] => 0
  | c :: rest => if c = 0 then 0 else find_zero rest + 1

/-- Little-endian machine word assembled from a byte list (the embedding of
the `*const usize` pointer-cast read in `strlen`; `% 256` enforces the u8
range of the source bytes). -/
def wordOf : List Nat → Nat
  | [] => 0
  | b :: rest => b % 256 + 256 * wordOf rest

/-- The prefix loop of `strlen`: scan the first `k` bytes for a zero,
returning its index. -/
def prescan : List Nat → Nat → Nat → Option Nat
  | _, 0, _ => none
  | [], _ + 1, _ => none
  | c :: rest, k + 1, i => if c = 0 then some i else prescan rest k (i + 1)

/-- The word loop of `strlen`: test `m` consecutive words (word `k` covers
bytes `offset + 8*k ..`) with `has_null_byte`, returning the byte position of
the first word that reports a zero byte. -/
def wordScan (s : List Nat) (offset : Nat) : Nat → Nat → Option Nat
  | 0, _ => none
  | m + 1, k =>
    if has_null_byte (wordOf ((s.drop (offset + 8 * k)).take 8)) then
      some (offset + 8 * k)
    else
      wordScan s offset m (k + 1)

/-- `strlen` from `terminfo/src/util.rs`: prefix byte scan of `len % 8`
bytes, then word-at-a-time scan with `has_null_byte`, then the final
`s.last() == Some(&0)` fallback. -/
def strlen (s : List Nat) : Nat :=
  let offset := s.length % WORD_SIZE
  match prescan s offset 0 with
  | some i => i
  | none =>
    match wordScan s offset ((s.length - offset) / WORD_SIZE) 0 with
    | some b => b + find_zero (s.drop b)
    | none => if s.getLast? = some 0 then s.length - 1 else s.length

/-! ## Binary-format layer: `split_terminfo` and the zero-copy view
(`src/terminfo/terminfo.rs` of the main crate) -/

/-- `read_le_u16(b, i)` from `util.rs`: `0xFFFF` when the slice is shorter
than two bytes, otherwise the little-endian 16-bit word at byte offset `2*i`
(the source reads through an unchecked pointer cast; every call site embedded
here is in bounds, and the `getD 0` default is never exercised there). -/
def read_le_u16 (b : List Nat) (i : Nat) : Nat :=
  if b.length < 2 then 65535
  else b.getD (2 * i) 0 % 256 + 256 * (b.getD (2 * i + 1) 0 % 256)

/-- `StringTable::get` / `StrTable::get`: bounds check, then the bytes from
`offset` up to `strlen` (the error context collapses to its table-read kind). -/
def strtab_get (table : List Nat) (offset : Nat) : Res (List Nat) :=
  if offset > table.length then .err .FailedToReadStringFromTable
  else
    let slice := table.drop offset
    .ok (slice.take (strlen slice))

/-- `StringTable::get_iter`: bytes from `offset` up to (excluding) the first
NUL. -/
def strtab_get_iter (table : List Nat) (offset : Nat) : List Nat :=
  (table.drop offset).takeWhile (fun c => decide (c ≠ 0))

structure TermInfoExtView where
  bools : List Nat
  numbers : List Nat
  strings : List Nat
  names : List Nat
  strtab : List Nat
  nametab_start : Nat
  deriving DecidableEq, Repr

structure TermInfoView where
  names : List Nat
  bools : List Nat
  numbers : List Nat
  strings : List Nat
  strtab : List Nat
  ext : Option TermInfoExtView
  deriving DecidableEq, Repr

/-- The stateful reverse `take_while` of `split_terminfo_ext`, applied to the
reversed string table: count the bytes taken while fewer than
`names_count + 1` NULs (counted down in `x`) have been consumed. -/
def nametabScan : List Nat → Nat → Nat
  | [], _ => 0
  | c :: rest, x =>
    let x' := if c = 0 then x - 1 else x
    if x' = 0 then 0 else 1 + nametabScan rest x'

/-- `split_terminfo_ext` from `terminfo.rs`: the five-word extended header,
section slices, and the value/name split point of the extended string table. -/
def split_terminfo_ext (bytes : List Nat) : Res TermInfoExtView :=
  if bytes.length < 10 then .err .IncompleteExtendedHeader else
  let bools_count := read_le_u16 bytes 0
  let numbers_count := read_le_u16 bytes 1
  let strings_count := read_le_u16 bytes 2
  let strtab_size := read_le_u16 bytes 3
  let strtab_last_offset := read_le_u16 bytes 4
  let names_count := strings_count + numbers_count + bools_count
  let expected0 := 10 + bools_count + numbers_count * 2 + strings_count * 2 +
    names_count * 2 + strtab_size
  let expected := if bools_count % 2 ≠ 0 then expected0 + 1 else expected0
  if expected > bytes.length then .err .IncompleteExtendedTermInfo else
  let slice := bytes.drop 10
  if bools_count > slice.length then .panicked else
  let bools := slice.take bools_count
  let boolSkip := if bools_count % 2 ≠ 0 then bools_count + 1 else bools_count
  if boolSkip > slice.length then .panicked else
  let slice := slice.drop boolSkip
  if numbers_count * 2 > slice.length then .panicked else
  let numbers := slice.take (numbers_count * 2)
  let slice := slice.drop (numbers_count * 2)
  if strings_count * 2 > slice.length then .panicked else
  let strings := slice.take (strings_count * 2)
  let slice := slice.drop (strings_count * 2)
  if names_count * 2 > slice.length then .panicked else
  let names := slice.take (names_count * 2)
  let slice := slice.drop (names_count * 2)
  if strtab_last_offset > slice.length then .panicked else
  let strtab := slice.take strtab_last_offset
  let cnt := nametabScan strtab.reverse (names_count + 1)
  .ok ⟨bools, numbers, strings, names, strtab, strtab_last_offset - cnt⟩

/-- Header words of the base section (named intermediates of
`split_terminfo`, used verbatim in its definition below). -/
def base_names_size (bytes : List Nat) : Nat := read_le_u16 bytes 1

def base_bools_count (bytes : List Nat) : Nat := read_le_u16 bytes 2

def base_numbers_count (bytes : List Nat) : Nat := read_le_u16 bytes 3

def base_strings_count (bytes : List Nat) : Nat := read_le_u16 bytes 4

def base_strtab_size (bytes : List Nat) : Nat := read_le_u16 bytes 5

/-- `expected_filesize` of `split_terminfo`, including its exact padding
condition `bools_count + names_size % 2 != 0` (in Rust `%` binds tighter
than `+`). -/
def base_expected (bytes : List Nat) : Nat :=
  let expected0 := 12 + base_bools_count bytes + base_numbers_count bytes * 2 +
    base_strings_count bytes * 2 + base_strtab_size bytes + base_names_size bytes
  if base_bools_count bytes + base_names_size bytes % 2 ≠ 0 then expected0 + 1 else expected0

/-- The successive values of the `slice` cursor in `split_terminfo`. -/
def base_slice0 (bytes : List Nat) : List Nat := bytes.drop 12

def base_slice1 (bytes : List Nat) : List Nat :=
  (base_slice0 bytes).drop (base_names_size bytes)

/-- The 2-byte alignment skip after the booleans. -/
def base_boolSkip (bytes : List Nat) : Nat :=
  if (base_bools_count bytes + base_names_size bytes) % 2 ≠ 0 then
    base_bools_count bytes + 1
  else base_bools_count bytes

def base_slice2 (bytes : List Nat) : List Nat :=
  (base_slice1 bytes).drop (base_boolSkip bytes)

def base_slice3 (bytes : List Nat) : List Nat :=
  (base_slice2 bytes).drop (base_numbers_count bytes * 2)

def base_slice4 (bytes : List Nat) : List Nat :=
  (base_slice3 bytes).drop (base_strings_count bytes * 2)

/-- The 2-byte alignment skip after the string table. -/
def base_strtabSkip (bytes : List Nat) : Nat :=
  if base_strtab_size bytes % 2 ≠ 0 then base_strtab_size bytes + 1
  else base_strtab_size bytes

def base_slice5 (bytes : List Nat) : List Nat :=
  (base_slice4 bytes).drop (base_strtabSkip bytes)

/-- `split_terminfo` from `terminfo.rs`: the 12-byte header checks, the
(buggy) expected-size check, then each section sliced off in order with the
exact bound checks Rust's slicing performs (`names_size - 1` underflows on a
zero-length names section; each out-of-range slice is a panic). -/
def split_terminfo (bytes : List Nat) : Res TermInfoView :=
  if bytes.length < 12 then .err .IncompleteTermInfoHeader else
  if read_le_u16 bytes 0 ≠ 0o432 then .err .InvalidMagicNumber else
  if base_expected bytes > bytes.length then .err .IncompleteTermInfo else
  if base_names_size bytes = 0 then .panicked else
  if base_names_size bytes - 1 > (base_slice0 bytes).length then .panicked else
  if base_names_size bytes > (base_slice0 bytes).length then .panicked else
  if base_bools_count bytes > (base_slice1 bytes).length then .panicked else
  if base_boolSkip bytes > (base_slice1 bytes).length then .panicked else
  if base_numbers_count bytes * 2 > (base_slice2 bytes).length then .panicked else
  if base_strings_count bytes * 2 > (base_slice3 bytes).length then .panicked else
  if base_strtab_size bytes > (base_slice4 bytes).length then .panicked else
  if base_strtabSkip bytes > (base_slice4 bytes).length then .panicked else
  if base_expected bytes < bytes.length then
    match split_terminfo_ext (base_slice5 bytes) with
    | .ok e =>
      .ok ⟨(base_slice0 bytes).take (base_names_size bytes - 1),
        (base_slice1 bytes).take (base_bools_count bytes),
        (base_slice2 bytes).take (base_numbers_count bytes * 2),
        (base_slice3 bytes).take (base_strings_count bytes * 2),
        (base_slice4 bytes).take (base_strtab_size bytes), some e⟩
    | .err k => .err k
    | .panicked => .panicked
  else
    .ok ⟨(base_slice0 bytes).take (base_names_size bytes - 1),
      (base_slice1 bytes).take (base_bools_count bytes),
      (base_slice2 bytes).take (base_numbers_count bytes * 2),
      (base_slice3 bytes).take (base_strings_count bytes * 2),
      (base_slice4 bytes).take (base_strtab_size bytes), none⟩

/-- `TermInfo::boolean`. -/
def TermInfo.boolean (t : TermInfoView) (i : Nat) : Bool :=
  if i < t.bools.length then decide (t.bools.getD i 0 ≠ 0) else false

/-- `TermInfo::number`. -/
def TermInfo.number (t : TermInfoView) (i : Nat) : Option Nat :=
  if i * 2 < t.numbers.length then
    let number := read_le_u16 t.numbers i
    if number ≠ 65535 then some number else none
  else none

/-- `TermInfo::string` (its `.unwrap()` of the table read becomes a panic
outcome when the stored offset lies outside the string table). -/
def TermInfo.string (t : TermInfoView) (i : Nat) : Res (Option (List Nat)) :=
  if i * 2 < t.strings.length then
    let offset := read_le_u16 t.strings i
    if offset ≠ 65535 then
      match strtab_get t.strtab offset with
      | .ok s => .ok (some s)
      | _ => .panicked
    else .ok none
  else .ok none

/-! ## `TermInfoBuf` (`src/terminfo/terminfobuf.rs`) -/

structure TermInfoExtBuf where
  bools : List Bool
  numbers : List Nat
  strings : List Nat
  names : List Nat
  strtab : List Nat
  nametab : List Nat
  deriving DecidableEq, Repr

structure TermInfoBuf where
  names : List (List Nat)
  bools : List Bool
  numbers : List Nat
  strings : List Nat
  strtab : List Nat
  ext : Option TermInfoExtBuf
  deriving DecidableEq, Repr

/-- `TermInfo::get_numbers` / `get_string_offsets`: `chunks(2)` read as
little-endian 16-bit words (an odd trailing chunk reads as `0xFFFF` through
`read_le_u16`'s length guard).  The stored values are widened (u16 → u32) as
the owned buffer declares. -/
def leU16Chunks : List Nat → List Nat
  | a :: b :: rest => (a % 256 + 256 * (b % 256)) :: leU16Chunks rest
  | [_] => [65535]
  | [] => []

/-- `TermInfoBuf::from_terminfo`: copy every section out of the view; the
extended string table is split at the stored `nametab_start`. -/
def from_terminfo (t : TermInfoView) : TermInfoBuf :=
  { names := t.names.splitOn 124
    bools := t.bools.map (fun b => decide (b ≠ 0))
    numbers := leU16Chunks t.numbers
    strings := leU16Chunks t.strings
    strtab := t.strtab
    ext := t.ext.map (fun e =>
      { bools := e.bools.map (fun b => decide (b ≠ 0))
        numbers := leU16Chunks e.numbers
        strings := leU16Chunks e.strings
        names := leU16Chunks e.names
        strtab := e.strtab.take e.nametab_start
        nametab := e.strtab.drop e.nametab_start }) }

/-- `TermInfoBuf::new()`. -/
def TermInfoBuf.empty : TermInfoBuf := ⟨[], [], [], [], [], none⟩

/-- `TermInfoBuf::boolean`. -/
def TermInfoBuf.boolean (b : TermInfoBuf) (i : Nat) : Bool :=
  b.bools.getD i false

/-- `TermInfoBuf::number`. -/
def TermInfoBuf.number (b : TermInfoBuf) (i : Nat) : Option Nat :=
  let x := b.numbers.getD i 65535
  if x = 65535 then none else some x

/-- `TermInfoBuf::string`. -/
def TermInfoBuf.string (b : TermInfoBuf) (i : Nat) : Option (List Nat) :=
  match strtab_get b.strtab (b.strings.getD i 65535) with
  | .ok s => some s
  | _ => none

/-- The `while self.xs.len() <= i { self.xs.push(fill) }` growth loop of the
setters. -/
def growTo {α : Type} (l : List α) (i : Nat) (fill : α) : List α :=
  l ++ List.replicate (i + 1 - l.length) fill

/-- `TermInfoBuf::set_boolean`. -/
def TermInfoBuf.set_boolean (b : TermInfoBuf) (i : Nat) (v : Bool) : TermInfoBuf :=
  { b with bools := (growTo b.bools i false).set i v }

/-- `TermInfoBuf::set_number`. -/
def TermInfoBuf.set_number (b : TermInfoBuf) (i : Nat) (v : Nat) : TermInfoBuf :=
  { b with numbers := (growTo b.numbers i 65535).set i v }

/-- `TermInfoBuf::set_string`: grow the offset array, append `v` (plus a NUL)
to the owned string table, then record the offset unless the table has hit
the `0xFFFE` cap (the growth and the append persist even on that error, as
they do in the source). -/
def TermInfoBuf.set_string (b : TermInfoBuf) (i : Nat) (v : List Nat) :
    TermInfoBuf × Option ErrorKind :=
  let strings := growTo b.strings i 65535
  let offset := b.strtab.length
  let strtab := b.strtab ++ v ++ [0]
  if offset ≥ 65534 then
    ({ b with strings := strings, strtab := strtab }, some .MaxStrTabSizeReached)
  else
    ({ b with strings := strings.set i offset, strtab := strtab }, none)

/-- The scan inside `TermInfoBuf::ext_index`: first index whose
NUL-terminated name in the name table equals `s`. -/
def idxScan (nametab : List Nat) : List Nat → List Nat → Nat → Option Nat
  | [], _, _ => none
  | x :: rest, s, i =>
    if strtab_get_iter nametab x = s then some i else idxScan nametab rest s (i + 1)

/-- `TermInfoBuf::ext_index`. -/
def TermInfoBuf.ext_index (b : TermInfoBuf) (s : List Nat) : Option Nat :=
  match b.ext with
  | some e => idxScan e.nametab e.names s 0
  | none => none

/-- `TermInfoBuf::ext_boolean`. -/
def TermInfoBuf.ext_boolean (b : TermInfoBuf) (s : List Nat) : Bool :=
  match b.ext with
  | some ext =>
    match b.ext_index s with
    | some idx => if idx < ext.bools.length then ext.bools.getD idx false else false
    | none => false
  | none => false

/-- `TermInfoBuf::ext_number` (no `0xFFFF` check here, unlike the view). -/
def TermInfoBuf.ext_number (b : TermInfoBuf) (s : List Nat) : Option Nat :=
  match b.ext with
  | some ext =>
    match b.ext_index s with
    | some idx =>
      let idx_offset := ext.bools.length
      if idx ≥ idx_offset ∧ idx - idx_offset < ext.numbers.length then
        some (ext.numbers.getD (idx - idx_offset) 0)
      else none
    | none => none
  | none => none

/-- Rust `Vec::insert`: panics when the index exceeds the length. -/
def listInsert {α : Type} (l : List α) (i : Nat) (a : α) : Res (List α) :=
  if i > l.length then .panicked else .ok (l.insertIdx i a)

/-- `TermInfoBuf::set_ext_boolean`.  Existing name: write `ext.bools[x]`
(a panic when `x` is not a boolean index).  Fresh name with an existing
extended section: push the value, then `names.insert(ext.bools.len(), _)` —
the index the source passes, one past the freshly pushed boolean's name slot.
No extended section yet: create one with single-element arrays.  (State
mutated before an error return is dropped here; no claim observes it.) -/
def TermInfoBuf.set_ext_boolean (b : TermInfoBuf) (field : List Nat) (v : Bool) :
    Res TermInfoBuf :=
  let idx := b.ext_index field
  match b.ext with
  | some ext =>
    if ext.bools.length > 65535 ∧ idx = none then .err .MaximumCapabilityCountExceeded
    else
      match idx with
      | some x =>
        if x < ext.bools.length then
          .ok { b with ext := some { ext with bools := ext.bools.set x v } }
        else .panicked
      | none =>
        let offset := ext.nametab.length
        let nametab := ext.nametab ++ field ++ [0]
        if offset ≥ 65534 then .err .MaxStrTabSizeReached
        else
          let bools := ext.bools ++ [v]
          match listInsert ext.names bools.length offset with
          | .ok names =>
            .ok { b with ext := some { ext with bools := bools, names := names, nametab := nametab } }
          | .err k => .err k
          | .panicked => .panicked
  | none =>
    let nametab := field ++ [0]
    if (0 : Nat) ≥ 65534 then .err .MaxStrTabSizeReached
    else .ok { b with ext := some ⟨[v], [], [], [0], [], nametab⟩ }

/-- `TermInfoBuf::set_ext_number`.  Existing name: the source writes to
`self.numbers` — the *base* number table — under the guard
`x > xoff && x < xoff + self.numbers.len()`, and leaves the extended value
untouched.  Fresh name: push onto `ext.numbers`, then
`names.insert(ext.numbers.len(), _)`. -/
def TermInfoBuf.set_ext_number (b : TermInfoBuf) (field : List Nat) (v : Nat) :
    Res TermInfoBuf :=
  let idx := b.ext_index field
  match b.ext with
  | some ext =>
    if ext.bools.length > 65535 ∧ idx = none then .err .MaximumCapabilityCountExceeded
    else
      match idx with
      | some x =>
        let xoff := ext.bools.length
        if x > xoff ∧ x < xoff + b.numbers.length then
          .ok { b with numbers := b.numbers.set (x - xoff) v }
        else
          .ok b
      | none =>
        let offset := ext.nametab.length
        let nametab := ext.nametab ++ field ++ [0]
        if offset ≥ 65534 then .err .MaxStrTabSizeReached
        else
          let numbers := ext.numbers ++ [v]
          match listInsert ext.names numbers.length offset with
          | .ok names =>
            .ok { b with ext := some { ext with numbers := numbers, names := names, nametab := nametab } }
          | .err k => .err k
          | .panicked => .panicked
  | none =>
    let nametab := field ++ [0]
    if (0 : Nat) ≥ 65534 then .err .MaxStrTabSizeReached
    else .ok { b with ext := some ⟨[], [v], [], [0], [], nametab⟩ }

/-! ## Parameterised-string language (`terminfo/src/lang/`) -/

/-- `Argument` from `lang/argument.rs`; numeric `From` impls land in
`Integer`, `bool` becomes `Integer(0/1)`. -/
inductive Argument where
  | int (i : Int)
  | str (s : List Nat)
  | chr (c : Nat)
  deriving DecidableEq, Repr

/-- `PrintfArgs` from `lang/printf.rs` (`character` is the conversion byte,
`0` for the derived default). -/
structure PrintfArgs where
  left_align : Bool := false
  show_sign : Bool := false
  pad_sign : Bool := false
  alt : Bool := false
  width : Option Nat := none
  prec : Option Nat := none
  character : Nat := 0
  deriving DecidableEq, Repr

/-- `parse_usize`: `try_fold` that multiplies the *first* digit by 1, the
second by 10, … — i.e. it reads multi-digit numbers least-significant digit
first. -/
def parse_usize (s : List Nat) : Res Nat :=
  Res.bind
    (s.foldl
      (fun acc c =>
        Res.bind acc fun p =>
          if 48 ≤ c ∧ c ≤ 57 then .ok (p.1 + (c - 48) * p.2, p.2 * 10)
          else .err (.InvalidDigit c))
      (.ok ((0 : Nat), (1 : Nat))))
    fun p => .ok p.1

/-- `PrintfArgs::parse_specifier`. -/
def PrintfArgs.parse_specifier (a : PrintfArgs) (src : List Nat) : Res PrintfArgs :=
  match src.head? with
  | some 120 => .ok { a with character := 120 }
  | some 111 => .ok { a with character := 111 }
  | some 88 => .ok { a with character := 88 }
  | some 100 => .ok { a with character := 100 }
  | some 115 => .ok { a with character := 115 }
  | some 99 => .ok { a with character := 99 }
  | _ => .err .BadPrintfSpecifier

def countDigits (l : List Nat) : Nat :=
  (l.takeWhile fun c => decide (48 ≤ c ∧ c ≤ 57)).length

/-- `PrintfArgs::parse_width`: optional decimal width, optional
`.`-precision, then the conversion letter. -/
def PrintfArgs.parse_width (a : PrintfArgs) (src : List Nat) : Res PrintfArgs :=
  let ww := countDigits src
  let withW :=
    if ww > 0 then
      match parse_usize (src.take ww) with
      | .ok w => Res.ok { a with width := some w }
      | .err _ => .err .BadPrecisionSpecified
      | .panicked => .panicked
    else .ok a
  Res.bind withW fun a =>
    if src.length > ww ∧ src.getD ww 0 = 46 then
      let pw := countDigits (src.drop (ww + 1))
      if pw > 0 then
        match parse_usize ((src.drop (ww + 1)).take pw) with
        | .ok p => PrintfArgs.parse_specifier { a with prec := some p } (src.drop (pw + 1 + ww))
        | .err _ => .err .BadPrecisionSpecified
        | .panicked => .panicked
      else .err .BadPrecisionSpecified
    else a.parse_specifier (src.drop ww)

/-- `PrintfArgs::parse_flags`: `+ - # ` (space) flags after the `:` prefix. -/
def PrintfArgs.parse_flags (a : PrintfArgs) (src : List Nat) : Res PrintfArgs :=
  let flagsList := src.takeWhile fun c => decide (c = 43 ∨ c = 45 ∨ c = 35 ∨ c = 32)
  let a := flagsList.foldl
    (fun a flag =>
      if flag = 43 then { a with show_sign := true }
      else if flag = 45 then { a with left_align := true }
      else if flag = 35 then { a with alt := true }
      else { a with pad_sign := true })
    a
  a.parse_width (src.drop flagsList.length)

/-- `PrintfArgs::parse`. -/
def PrintfArgs.parse (src : List Nat) : Res PrintfArgs :=
  match src.head? with
  | none => .err .BadPrintfSpecifier
  | some 58 => PrintfArgs.parse_flags {} (src.drop 1)
  | some c =>
    if (48 ≤ c ∧ c ≤ 57) ∨ c = 46 then PrintfArgs.parse_width {} src
    else PrintfArgs.parse_specifier {} src

/-- `PrintfArgs::pad`: space padding to `width`, before the payload by
default, after it under `-`. -/
def PrintfArgs.pad (a : PrintfArgs) (buf : List Nat) : List Nat :=
  let pre :=
    match a.width with
    | some w => if buf.length < w ∧ ¬a.left_align then List.replicate (w - buf.length) 32 else []
    | none => []
  let post :=
    match a.width with
    | some w => if buf.length < w ∧ a.left_align then List.replicate (w - buf.length) 32 else []
    | none => []
  pre ++ buf ++ post

/-- Digit byte for `NUM_CHARS` / `UPPERCASE_NUM_CHARS`. -/
def NUM_CHAR (uppercase : Bool) (d : Nat) : Nat :=
  if d < 10 then 48 + d else (if uppercase then 55 + d else 87 + d)

/-- The `while wnum > 0` digit loop, least-significant digit first (`n` is
also a sufficient fuel bound for any radix ≥ 2). -/
def digitsLSF (radix : Nat) : Nat → Nat → List Nat
  | 0, _ => []
  | fuel + 1, n => if n = 0 then [] else n % radix :: digitsLSF radix fuel (n / radix)

/-- `PrintfArgs::write_number`: sign byte, alternate-form prefix, digits
(most-significant first after the buffer reversal), precision truncation of
the digits only, then width padding.  The source's 22-byte stack buffer
overflows (a panic) when prefix plus digits exceed 22 bytes. -/
def PrintfArgs.write_number (a : PrintfArgs) (num : Int) : Res (List Nat) :=
  let ru : Res (Nat × Bool) :=
    if a.character = 120 then .ok (16, false)
    else if a.character = 88 then .ok (16, true)
    else if a.character = 111 then .ok (8, false)
    else if a.character = 100 then .ok (10, false)
    else if a.character = 115 then .err (.UnexpectedArgumentType "string" "integer")
    else if a.character = 99 then .err (.UnexpectedArgumentType "char" "integer")
    else .err (.UnexpectedArgumentType "" "integer")
  Res.bind ru fun ru =>
    let radix := ru.1
    let uppercase := ru.2
    let wnum : Nat := num.natAbs
    let signPfx : List Nat :=
      if num < 0 then [45]
      else if a.pad_sign then [32]
      else if a.show_sign then [43]
      else []
    let altPfx : List Nat :=
      if a.alt then
        if radix = 8 then [48]
        else if uppercase ∧ radix = 16 then [48, 88]
        else if radix = 16 then [48, 120]
        else []
      else []
    let pfx := signPfx ++ altPfx
    let digits := ((digitsLSF radix wnum wnum).map (NUM_CHAR uppercase)).reverse
    if pfx.length + digits.length > 22 then .panicked
    else
      let digits :=
        match a.prec with
        | some prec => if digits.length > prec then digits.take prec else digits
        | none => digits
      .ok (a.pad (pfx ++ digits))

/-- `PrintfArgs::write_string`: byte truncation to the precision, then
padding (the source slices `&str` bytes; inputs here are byte lists). -/
def PrintfArgs.write_string (a : PrintfArgs) (s : List Nat) : Res (List Nat) :=
  if a.character = 120 ∨ a.character = 88 ∨ a.character = 111 ∨ a.character = 100 then
    .err (.UnexpectedArgumentType "integer" "string")
  else if a.character = 99 then .err (.UnexpectedArgumentType "char" "string")
  else
    let slen :=
      match a.prec with
      | some prec => if s.length > prec then prec else s.length
      | none => s.length
    .ok (a.pad (s.take slen))

/-- `PrintfArgs::write_char` (its `'s'` arm reports
`("integer", "string")`, as the source does). -/
def PrintfArgs.write_char (a : PrintfArgs) (c : Nat) : Res (List Nat) :=
  if a.character = 120 ∨ a.character = 88 ∨ a.character = 111 ∨ a.character = 100 then
    .err (.UnexpectedArgumentType "integer" "char")
  else if a.character = 115 then .err (.UnexpectedArgumentType "integer" "string")
  else .ok (a.pad [c])

/-- `PrintfArgs::print`: a missing argument renders the literal `(null)`. -/
def PrintfArgs.print (a : PrintfArgs) (arg : Option Argument) : Res (List Nat) :=
  match arg with
  | some (.int x) => a.write_number x
  | some (.str s) => a.write_string s
  | some (.chr c) => a.write_char c
  | none => .ok [40, 110, 117, 108, 108, 41]

/-- `Op` from `lang/parser.rs`. -/
inductive Op where
  | push (n : Nat)
  | noOp
  | add
  | sub
  | mul
  | div
  | mod
  | bitAnd
  | bitOr
  | bitXor
  | less
  | greater
  | equal
  | invert
  | opNot
  | incrementArgs
  | strLenOp
  | branchTrue (n : Nat)
  | branchFalse (n : Nat)
  | jump (n : Nat)
  | print (p : PrintfArgs)
  | printSlice (s : List Nat)
  deriving DecidableEq, Repr

/-!
`Parser` embedding.  The Rust parser is an iterator over an internal op
queue; each refill (`next_instruction`) appends whole instructions — the `%?`
arm appends and backpatches a complete conditional — before anything is
popped, so the stream the executor sees equals the eagerly accumulated list.
`next_instruction`, the `parse_until` entry (whose unguarded `self.slice[0]`
/ `self.slice[1]` reads panic on short input) and the `parse_until` loop are
embedded as fuelled mutually recursive functions over (remaining slice,
accumulated buffer); every Rust iteration consumes fuel 1.
-/

mutual

def next_instruction : Nat → List Nat → List Op → Res (List Nat × List Op)
  | 0, _, _ => .panicked
  | fuel + 1, slice, buf =>
    match slice with
    | [] => .ok ([], buf)
    | c :: rest =>
      if c ≠ 37 then
        let pos := (slice.takeWhile fun b => decide (b ≠ 37)).length
        .ok (slice.drop pos, buf ++ [.printSlice (slice.take pos)])
      else
        match rest with
        | [] => .err .UnexpectedEof
        | d :: rest2 =>
          if d = 37 then .ok (slice.drop 2, buf ++ [.printSlice [37]])
          else if d = 112 then
            match rest2.head? with
            | some i =>
              if 49 ≤ i ∧ i ≤ 57 then .ok (slice.drop 3, buf ++ [.push (i - 49)])
              else .err .InvalidArgumentIdentifier
            | none => .err .InvalidArgumentIdentifier
          else if d = 105 then .ok (slice.drop 2, buf ++ [.incrementArgs])
          else if d = 108 then .ok (slice.drop 2, buf ++ [.strLenOp])
          else if d = 43 then .ok (slice.drop 2, buf ++ [.add])
          else if d = 45 then .ok (slice.drop 2, buf ++ [.sub])
          else if d = 42 then .ok (slice.drop 2, buf ++ [.mul])
          else if d = 47 then .ok (slice.drop 2, buf ++ [.div])
          else if d = 109 then .ok (slice.drop 2, buf ++ [.mod])
          else if d = 38 then .ok (slice.drop 2, buf ++ [.bitAnd])
          else if d = 94 then .ok (slice.drop 2, buf ++ [.bitXor])
          else if d = 124 then .ok (slice.drop 2, buf ++ [.bitOr])
          else if d = 61 then .ok (slice.drop 2, buf ++ [.equal])
          else if d = 60 then .ok (slice.drop 2, buf ++ [.less])
          else if d = 62 then .ok (slice.drop 2, buf ++ [.greater])
          else if d = 126 then .ok (slice.drop 2, buf ++ [.invert])
          else if d = 33 then .ok (slice.drop 2, buf ++ [.opNot])
          else if d = 63 then
            match parse_until_entry fuel (slice.drop 2) buf [116] with
            | .ok (s1, b1) =>
              let s2 := s1.drop 2
              let branch_idx := b1.length
              let b2 := b1 ++ [Op.noOp]
              match parse_until_entry fuel s2 b2 [101, 59] with
              | .ok (s3, b3) =>
                if s3.length < 2 then .err .UnexpectedEof
                else if s3.getD 1 0 = 101 then
                  let jump_idx := b3.length
                  let b4 := b3 ++ [Op.noOp]
                  let b5 := b4.set branch_idx (.branchFalse (b4.length - 1 - branch_idx))
                  match parse_until_entry fuel (s3.drop 2) b5 [59] with
                  | .ok (s4, b6) =>
                    .ok (s4.drop 2, b6.set jump_idx (.jump (b6.length - jump_idx)))
                  | .err k => .err k
                  | .panicked => .panicked
                else
                  .ok (s3.drop 2, b3.set branch_idx (.branchFalse (b3.length - 1 - branch_idx)))
              | .err k => .err k
              | .panicked => .panicked
            | .err k => .err k
            | .panicked => .panicked
          else
            match PrintfArgs.parse rest with
            | .ok p =>
              let read := 2 + (rest.takeWhile fun b =>
                decide (¬(b = 120 ∨ b = 88 ∨ b = 99 ∨ b = 100 ∨ b = 111 ∨ b = 115))).length
              if read ≤ slice.length then .ok (slice.drop read, buf ++ [.print p])
              else .panicked
            | .err k => .err k
            | .panicked => .panicked

def parse_until_entry : Nat → List Nat → List Op → List Nat → Res (List Nat × List Op)
  | 0, _, _, _ => .panicked
  | fuel + 1, slice, buf, stop =>
    match slice with
    | [] => .panicked
    | c :: rest =>
      if c = 37 ∧ rest = [] then .panicked
      else parse_until fuel (c :: rest) buf stop

def parse_until : Nat → List Nat → List Op → List Nat → Res (List Nat × List Op)
  | 0, _, _, _ => .panicked
  | fuel + 1, slice, buf, stop =>
    if slice.length ≥ 2 then
      if slice.getD 0 0 = 37 ∧ stop.contains (slice.getD 1 0) then .ok (slice, buf)
      else
        match next_instruction fuel slice buf with
        | .ok (s', b') => parse_until fuel s' b' stop
        | .err k => .err k
        | .panicked => .panicked
    else .err .UnexpectedEof

end

/-- `Parser::parse`: run `next_instruction` until the source is exhausted. -/
def parseAll : Nat → List Nat → List Op → Res (List Op)
  | 0, _, _ => .panicked
  | fuel + 1, slice, buf =>
    if slice.isEmpty then .ok buf
    else
      match next_instruction fuel slice buf with
      | .ok (s', b') => parseAll fuel s' b'
      | .err k => .err k
      | .panicked => .panicked

/-- Fuel that always suffices: each embedded step consumes at least one unit
of it per byte of remaining input or per emitted instruction. -/
def parserFuel (src : List Nat) : Nat := 4 * src.length + 16

def parseOps (src : List Nat) : Res (List Op) := parseAll (parserFuel src) src []

/-! ## Execution environment (`lang/executor.rs`) -/

structure ExecEnv where
  stack : List Argument
  arguments : List (Option Argument)
  deriving DecidableEq, Repr

/-- Successive `Executor::arg` calls: the first nine arguments fill the
slots, later ones are ignored. -/
def mkArgs (l : List Argument) : List (Option Argument) :=
  (l.take 9).map some ++ List.replicate (9 - (l.take 9).length) none

def ExecEnv.pop (e : ExecEnv) : Option Argument × ExecEnv :=
  match e.stack with
  | [] => (none, e)
  | a :: rest => (some a, { e with stack := rest })

def ExecEnv.push (e : ExecEnv) (a : Argument) : ExecEnv :=
  { e with stack := a :: e.stack }

def ExecEnv.pop_integer (e : ExecEnv) : Res (Int × ExecEnv) :=
  match e.pop with
  | (some (.int x), e') => .ok (x, e')
  | (some (.str _), _) => .err (.UnexpectedArgumentType "integer" "string")
  | (some (.chr _), _) => .err (.UnexpectedArgumentType "integer" "char")
  | (none, _) => .err (.UnexpectedArgumentType "string" "null")

def ExecEnv.pop_string (e : ExecEnv) : Res (List Nat × ExecEnv) :=
  match e.pop with
  | (some (.int _), _) => .err (.UnexpectedArgumentType "string" "integer")
  | (some (.str s), e') => .ok (s, e')
  | (some (.chr _), _) => .err (.UnexpectedArgumentType "string" "char")
  | (none, _) => .err (.UnexpectedArgumentType "string" "null")

def ExecEnv.pop_bool (e : ExecEnv) : Bool × ExecEnv :=
  match e.pop with
  | (some (.int x), e') => (decide (x ≠ 0), e')
  | (some (.str s), e') => (decide (s ≠ []), e')
  | (some (.chr c), e') => (decide (c ≠ 0), e')
  | (none, e') => (false, e')

/-- `map_integer2`: pop `x`, pop `y`, push `f x y` (so `x` is the operand
pushed *last*). -/
def ExecEnv.map_integer2 (e : ExecEnv) (f : Int → Int → Res Argument) : Res ExecEnv :=
  Res.bind e.pop_integer fun xe =>
    Res.bind xe.2.pop_integer fun ye =>
      Res.bind (f xe.1 ye.1) fun a => .ok (ye.2.push a)

def ExecEnv.map_integer (e : ExecEnv) (f : Int → Res Argument) : Res ExecEnv :=
  Res.bind e.pop_integer fun xe =>
    Res.bind (f xe.1) fun a => .ok (xe.2.push a)

def incrArg : Option Argument → Option Argument
  | some (.int x) => some (.int (x + 1))
  | a => a

/-- `Op::IncrementArgs`: add one to parameters 0 and 1 when they hold
integers. -/
def ExecEnv.incrementArgs (e : ExecEnv) : ExecEnv :=
  let a1 := e.arguments.set 0 (incrArg (e.arguments.getD 0 none))
  let a2 := a1.set 1 (incrArg (a1.getD 1 none))
  { e with arguments := a2 }

/-- Two's-complement view of Rust `i64` bitwise operations on unbounded
integers (exact for all in-range values). -/
def i64_to_nat (x : Int) : Nat := (x % (2 ^ 64 : Int)).toNat

def nat_to_i64 (n : Nat) : Int :=
  if n < 2 ^ 63 then (n : Int) else (n : Int) - 2 ^ 64

def boolInt (b : Bool) : Argument := .int (if b then 1 else 0)

/-- `ExecutionEnvironment::write`, with the instruction stream already
parsed: skip counts drop from the remaining list, `/` and `%` panic on a
zero divisor exactly as Rust integer division does, comparisons push the
`From<bool>` integers, and `Op::Not`'s two arms (`x == 0` after `x != 0`,
`x == 1` after `x == 0`) are kept verbatim. -/
def exec : Nat → ExecEnv → List Op → List Nat → Res (List Nat)
  | 0, _, _, _ => .panicked
  | fuel + 1, env, ops, out =>
    match ops with
    | [] => .ok out
    | op :: rest =>
      match op with
      | .noOp => exec fuel env rest out
      | .push i => exec fuel (env.push ((env.arguments.getD i none).getD (.int 0))) rest out
      | .jump n => exec fuel env (rest.drop n) out
      | .branchFalse n =>
        let be := env.pop_bool
        if ¬be.1 then exec fuel be.2 (rest.drop n) out else exec fuel be.2 rest out
      | .branchTrue n =>
        let be := env.pop_bool
        if be.1 then exec fuel be.2 (rest.drop n) out else exec fuel be.2 rest out
      | .add =>
        match env.map_integer2 (fun x y => .ok (.int (x + y))) with
        | .ok e2 => exec fuel e2 rest out
        | .err k => .err k
        | .panicked => .panicked
      | .sub =>
        match env.map_integer2 (fun x y => .ok (.int (x - y))) with
        | .ok e2 => exec fuel e2 rest out
        | .err k => .err k
        | .panicked => .panicked
      | .div =>
        match env.map_integer2 (fun x y => if y = 0 then .panicked else .ok (.int (x.tdiv y))) with
        | .ok e2 => exec fuel e2 rest out
        | .err k => .err k
        | .panicked => .panicked
      | .mul =>
        match env.map_integer2 (fun x y => .ok (.int (x * y))) with
        | .ok e2 => exec fuel e2 rest out
        | .err k => .err k
        | .panicked => .panicked
      | .mod =>
        match env.map_integer2 (fun x y => if y = 0 then .panicked else .ok (.int (x.tmod y))) with
        | .ok e2 => exec fuel e2 rest out
        | .err k => .err k
        | .panicked => .panicked
      | .bitAnd =>
        match env.map_integer2 (fun x y => .ok (.int (nat_to_i64 (i64_to_nat x &&& i64_to_nat y)))) with
        | .ok e2 => exec fuel e2 rest out
        | .err k => .err k
        | .panicked => .panicked
      | .bitOr =>
        match env.map_integer2 (fun x y => .ok (.int (nat_to_i64 (i64_to_nat x ||| i64_to_nat y)))) with
        | .ok e2 => exec fuel e2 rest out
        | .err k => .err k
        | .panicked => .panicked
      | .bitXor =>
        match env.map_integer2 (fun x y => .ok (.int (nat_to_i64 (i64_to_nat x ^^^ i64_to_nat y)))) with
        | .ok e2 => exec fuel e2 rest out
        | .err k => .err k
        | .panicked => .panicked
      | .equal =>
        match env.map_integer2 (fun x y => .ok (boolInt (decide (x = y)))) with
        | .ok e2 => exec fuel e2 rest out
        | .err k => .err k
        | .panicked => .panicked
      | .greater =>
        match env.map_integer2 (fun x y => .ok (boolInt (decide (x > y)))) with
        | .ok e2 => exec fuel e2 rest out
        | .err k => .err k
        | .panicked => .panicked
      | .less =>
        match env.map_integer2 (fun x y => .ok (boolInt (decide (x < y)))) with
        | .ok e2 => exec fuel e2 rest out
        | .err k => .err k
        | .panicked => .panicked
      | .invert =>
        match env.map_integer (fun x => .ok (.int (-x - 1))) with
        | .ok e2 => exec fuel e2 rest out
        | .err k => .err k
        | .panicked => .panicked
      | .opNot =>
        match env.map_integer (fun x =>
            .ok (boolInt (if x ≠ 0 then decide (x = 0) else decide (x = 1)))) with
        | .ok e2 => exec fuel e2 rest out
        | .err k => .err k
        | .panicked => .panicked
      | .incrementArgs => exec fuel env.incrementArgs rest out
      | .strLenOp =>
        match env.pop_string with
        | .ok (s, e2) => exec fuel (e2.push (.int s.length)) rest out
        | .err k => .err k
        | .panicked => .panicked
      | .print p =>
        let ae := env.pop
        match p.print ae.1 with
        | .ok bytes => exec fuel ae.2 rest (out ++ bytes)
        | .err k => .err k
        | .panicked => .panicked
      | .printSlice s => exec fuel env rest (out ++ s)
/-- Parse a capability string and execute it with the given positional
arguments, collecting the written bytes (`Executor::vec`; the source writes
into the sink as it goes, so on an error the sink holds a prefix — callers
discard it, and the embedding returns the error alone). -/
def run_capability (src : List Nat) (args : List Argument) : Res (List Nat) :=
  match parseOps src with
  | .ok ops => exec (ops.length + 1) ⟨[], mkArgs args⟩ ops []
  | .err k => .err k
  | .panicked => .panicked

/-! ## Concrete inputs used by the claims -/

/-- Bytes of the 8-color `SetAForeground` template
`ESC [ %? %p1 %[8] %< %t 3 %p1 %d %e %p1 %[16] %< %t 9 %p1 %[8] %- %d %e 38;5; %p1 %d %; m`
(the literal-push directives are written with braces in the capability). -/
def sgrTemplate : List Nat :=
  [27, 91, 37, 63, 37, 112, 49, 37, 123, 56, 125, 37, 60, 37, 116, 51, 37, 112, 49, 37,
   100, 37, 101, 37, 112, 49, 37, 123, 49, 54, 125, 37, 60, 37, 116, 57, 37, 112, 49, 37,
   123, 56, 125, 37, 45, 37, 100, 37, 101, 51, 56, 59, 53, 59, 37, 112, 49, 37, 100, 37,
   59, 109]

/-- Bytes of `%p1%p2%-%d`. -/
def subTemplate : List Nat := [37, 112, 49, 37, 112, 50, 37, 45, 37, 100]

/-- Bytes of `%p1%p2%<%d`. -/
def lessTemplate : List Nat := [37, 112, 49, 37, 112, 50, 37, 60, 37, 100]

/-- Bytes of `%p1%p2%/%d`. -/
def divTemplate : List Nat := [37, 112, 49, 37, 112, 50, 37, 47, 37, 100]

/-- A 16-byte compiled terminfo file exactly as `tic` lays it out: magic
`0o432`, a 2-byte names section (`x` NUL), two boolean bytes, no numbers, no
strings, empty string table; `names_len + bool_count = 4` is even, so there
is no alignment padding byte. -/
def tic16File : List Nat := [0x1A, 0x01, 2, 0, 2, 0, 0, 0, 0, 0, 0, 0, 120, 0, 1, 1]

/-- A 12-byte buffer that is only the header: magic `0o432` and all six
counts zero (declaring a zero-length names section). -/
def zeroNamesFile : List Nat := [0x1A, 0x01, 0, 0, 0, 0, 0, 0, 0, 0, 0, 0]

/-- A 16-byte file that parses successfully but stores string offset 5 for
string capability 0 while its string table is empty: magic, 1-byte names
section, no booleans, no numbers, one string, empty string table, one
padding byte (names+bools odd), then the offset word `5`. -/
def danglingOffsetFile : List Nat := [0x1A, 0x01, 1, 0, 0, 0, 0, 0, 1, 0, 0, 0, 0, 0, 5, 0]

/-- The view `split_terminfo` produces for `danglingOffsetFile`. -/
def danglingOffsetView : TermInfoView := ⟨[], [], [], [5, 0], [], none⟩

/-- A minimal parse-succeeding file: magic, 2-byte names section (`x` NUL),
all other counts zero. -/
def tinyOkFile : List Nat := [0x1A, 0x01, 2, 0, 0, 0, 0, 0, 0, 0, 0, 0, 120, 0]

/-- The view `split_terminfo` produces for `tinyOkFile`. -/
def tinyOkView : TermInfoView := ⟨[120], [], [], [], [], none⟩

/-- Bytes at which `strlen` diverges from byte-wise scanning: sixteen bytes,
all `1` except a NUL at index 7 (the most-significant byte of the first
machine word). -/
def msbNulBytes : List Nat := [1, 1, 1, 1, 1, 1, 1, 0, 1, 1, 1, 1, 1, 1, 1, 1]

/-- Base-section size of a well-formed compiled file per the spec's layout
(§3): 12-byte header, names, booleans, one padding byte exactly when
`names_len + bool_count` is odd, 2-byte numbers and string offsets, string
table. -/
def specBaseSize (names_len bools numbers strings strtab : Nat) : Nat :=
  12 + names_len + bools + (names_len + bools) % 2 + 2 * numbers + 2 * strings + strtab

/-- Run one printf conversion: parse the spec (the bytes after `%`) and
format one argument. -/
def printfFormat (spec : List Nat) (arg : Option Argument) : Res (List Nat) :=
  Res.bind (PrintfArgs.parse spec) fun a => a.print arg

/-! ## Helper lemmas -/

/-! ### Bit-level facts about `has_null_byte` and `strlen` -/


theorem testBit_byte_shift (x H i : Nat) (hx : x < 256) :
    (x + 256 * H).testBit (i + 8) = H.testBit i := by
  rw [Nat.testBit_to_div_mod, Nat.testBit_to_div_mod]
  have h : (x + 256 * H) / 2 ^ (i + 8) = H / 2 ^ i := by
    calc (x + 256 * H) / 2 ^ (i + 8) = (x + 256 * H) / (256 * 2 ^ i) := by
          rw [pow_add]; ring_nf
      _ = (x + 256 * H) / 256 / 2 ^ i := by rw [Nat.div_div_eq_div_mul]
      _ = H / 2 ^ i := by
          rw [Nat.add_mul_div_left _ _ (by norm_num : (0:Nat) < 256),
            Nat.div_eq_of_lt hx, Nat.zero_add]
  rw [h]

theorem testBit_byte7 (x H : Nat) (hx : x < 256) :
    (x + 256 * H).testBit 7 = decide (128 ≤ x) := by
  rw [Nat.testBit_to_div_mod]
  have h1 : (x + 256 * H) / 2 ^ 7 = x / 128 + 2 * H := by
    rw [show 256 * H = 128 * (2 * H) by ring, show (2:Nat) ^ 7 = 128 by norm_num,
      Nat.add_mul_div_left _ _ (by norm_num : (0:Nat) < 128)]
  rw [h1]
  simp only [decide_eq_decide]
  omega

theorem HI_BITS_testBit (i : Nat) :
    HI_BITS.testBit i = (decide (i < 56) && decide (i % 8 = 7)) := by
  by_cases h : i < 56
  · have hall : ∀ j : Fin 56, HI_BITS.testBit j.val = decide (j.val % 8 = 7) := by decide
    have h2 := hall ⟨i, h⟩
    simp [h, h2]
  · have hfalse : HI_BITS.testBit i = false := by
      apply Nat.testBit_lt_two_pow
      calc HI_BITS < 2 ^ 56 := by decide
        _ ≤ 2 ^ i := Nat.pow_le_pow_right (by norm_num) (by omega)
    simp [hfalse, h]



set_option maxHeartbeats 3000000 in
theorem has_null_byte_core (b0 b1 b2 b3 b4 b5 b6 b7 : Nat)
    (u0 : b0 < 256) (u1 : b1 < 256) (u2 : b2 < 256) (u3 : b3 < 256)
    (u4 : b4 < 256) (u5 : b5 < 256) (u6 : b6 < 256) (u7 : b7 < 256)
    (n0 : b0 ≠ 0) (n1 : b1 ≠ 0) (n2 : b2 ≠ 0) (n3 : b3 ≠ 0)
    (n4 : b4 ≠ 0) (n5 : b5 ≠ 0) (n6 : b6 ≠ 0) :
    has_null_byte
      (b0 + 256 * (b1 + 256 * (b2 + 256 * (b3 + 256 * (b4 + 256 * (b5 + 256 * (b6 + 256 * b7))))))) =
      false := by
  unfold has_null_byte
  simp only [decide_eq_false_iff_not, ne_eq, not_not]
  have hLO : LO_BITS = 0x0001010101010101 := by decide
  have hM : USIZE_MOD = 0x10000000000000000 := by decide
  have hX : (b0 + 256 * (b1 + 256 * (b2 + 256 * (b3 + 256 * (b4 + 256 * (b5 + 256 * (b6 + 256 * b7))))))
        + USIZE_MOD - LO_BITS) % USIZE_MOD
      = (b0 - 1) + 256 * ((b1 - 1) + 256 * ((b2 - 1) + 256 * ((b3 - 1) + 256 * ((b4 - 1) +
          256 * ((b5 - 1) + 256 * ((b6 - 1) + 256 * b7)))))) := by
    rw [hLO, hM]; omega
  have hY : usize_not
        (b0 + 256 * (b1 + 256 * (b2 + 256 * (b3 + 256 * (b4 + 256 * (b5 + 256 * (b6 + 256 * b7)))))))
      = (255 - b0) + 256 * ((255 - b1) + 256 * ((255 - b2) + 256 * ((255 - b3) + 256 * ((255 - b4) +
          256 * ((255 - b5) + 256 * ((255 - b6) + 256 * (255 - b7))))))) := by
    unfold usize_not; rw [hM]; omega
  rw [hX, hY]
  apply Nat.eq_of_testBit_eq
  intro i
  rw [Nat.testBit_land, Nat.testBit_land, Nat.zero_testBit, HI_BITS_testBit]
  by_cases h56 : i < 56 ∧ i % 8 = 7
  · obtain ⟨hlt, hmod⟩ := h56
    have hi : i = 7 ∨ i = 15 ∨ i = 23 ∨ i = 31 ∨ i = 39 ∨ i = 47 ∨ i = 55 := by omega
    rcases hi with rfl | rfl | rfl | rfl | rfl | rfl | rfl
    · rw [testBit_byte7 _ _ (by omega), testBit_byte7 _ _ (by omega)]
      simp only [Bool.and_eq_false_iff, decide_eq_false_iff_not]
      omega
    · rw [show (15:Nat) = 7 + 8 by norm_num,
        testBit_byte_shift _ _ _ (by omega), testBit_byte_shift _ _ _ (by omega),
        testBit_byte7 _ _ (by omega), testBit_byte7 _ _ (by omega)]
      simp only [Bool.and_eq_false_iff, decide_eq_false_iff_not]
      omega
    · rw [show (23:Nat) = 7 + 8 + 8 by norm_num,
        testBit_byte_shift _ _ _ (by omega), testBit_byte_shift _ _ _ (by omega),
        testBit_byte_shift _ _ _ (by omega), testBit_byte_shift _ _ _ (by omega),
        testBit_byte7 _ _ (by omega), testBit_byte7 _ _ (by omega)]
      simp only [Bool.and_eq_false_iff, decide_eq_false_iff_not]
      omega
    · rw [show (31:Nat) = 7 + 8 + 8 + 8 by norm_num,
        testBit_byte_shift _ _ _ (by omega), testBit_byte_shift _ _ _ (by omega),
        testBit_byte_shift _ _ _ (by omega), testBit_byte_shift _ _ _ (by omega),
        testBit_byte_shift _ _ _ (by omega), testBit_byte_shift _ _ _ (by omega),
        testBit_byte7 _ _ (by omega), testBit_byte7 _ _ (by omega)]
      simp only [Bool.and_eq_false_iff, decide_eq_false_iff_not]
      omega
    · rw [show (39:Nat) = 7 + 8 + 8 + 8 + 8 by norm_num,
        testBit_byte_shift _ _ _ (by omega), testBit_byte_shift _ _ _ (by omega),
        testBit_byte_shift _ _ _ (by omega), testBit_byte_shift _ _ _ (by omega),
        testBit_byte_shift _ _ _ (by omega), testBit_byte_shift _ _ _ (by omega),
        testBit_byte_shift _ _ _ (by omega), testBit_byte_shift _ _ _ (by omega),
        testBit_byte7 _ _ (by omega), testBit_byte7 _ _ (by omega)]
      simp only [Bool.and_eq_false_iff, decide_eq_false_iff_not]
      omega
    · rw [show (47:Nat) = 7 + 8 + 8 + 8 + 8 + 8 by norm_num,
        testBit_byte_shift _ _ _ (by omega), testBit_byte_shift _ _ _ (by omega),
        testBit_byte_shift _ _ _ (by omega), testBit_byte_shift _ _ _ (by omega),
        testBit_byte_shift _ _ _ (by omega), testBit_byte_shift _ _ _ (by omega),
        testBit_byte_shift _ _ _ (by omega), testBit_byte_shift _ _ _ (by omega),
        testBit_byte_shift _ _ _ (by omega), testBit_byte_shift _ _ _ (by omega),
        testBit_byte7 _ _ (by omega), testBit_byte7 _ _ (by omega)]
      simp only [Bool.and_eq_false_iff, decide_eq_false_iff_not]
      omega
    · rw [show (55:Nat) = 7 + 8 + 8 + 8 + 8 + 8 + 8 by norm_num,
        testBit_byte_shift _ _ _ (by omega), testBit_byte_shift _ _ _ (by omega),
        testBit_byte_shift _ _ _ (by omega), testBit_byte_shift _ _ _ (by omega),
        testBit_byte_shift _ _ _ (by omega), testBit_byte_shift _ _ _ (by omega),
        testBit_byte_shift _ _ _ (by omega), testBit_byte_shift _ _ _ (by omega),
        testBit_byte_shift _ _ _ (by omega), testBit_byte_shift _ _ _ (by omega),
        testBit_byte_shift _ _ _ (by omega), testBit_byte_shift _ _ _ (by omega),
        testBit_byte7 _ _ (by omega), testBit_byte7 _ _ (by omega)]
      simp only [Bool.and_eq_false_iff, decide_eq_false_iff_not]
      omega
  · have : (decide (i < 56) && decide (i % 8 = 7)) = false := by
      simp only [Bool.and_eq_false_iff, decide_eq_false_iff_not]
      omega
    rw [this, Bool.and_false]



theorem getD_take_drop (s : List Nat) (p j n : Nat) (hj : j < n) :
    ((s.drop p).take n).getD j 0 = s.getD (p + j) 0 := by
  simp [List.getD_eq_getElem?_getD, List.getElem?_take, hj, List.getElem?_drop]

theorem getD_append_left {v w : List Nat} {i : Nat} (d : Nat) (h : i < v.length) :
    (v ++ w).getD i d = v.getD i d := by
  simp [List.getD_eq_getElem?_getD, List.getElem?_append_left h]

theorem has_null_byte_window_false (bs : List Nat) (hlen : bs.length = 8)
    (h : ∀ j, j < 7 → bs.getD j 0 % 256 ≠ 0) :
    has_null_byte (wordOf bs) = false := by
  rcases bs with _ | ⟨b0, bs⟩
  · simp only [List.length_nil] at hlen; omega
  rcases bs with _ | ⟨b1, bs⟩
  · simp only [List.length_cons, List.length_nil] at hlen; omega
  rcases bs with _ | ⟨b2, bs⟩
  · simp only [List.length_cons, List.length_nil] at hlen; omega
  rcases bs with _ | ⟨b3, bs⟩
  · simp only [List.length_cons, List.length_nil] at hlen; omega
  rcases bs with _ | ⟨b4, bs⟩
  · simp only [List.length_cons, List.length_nil] at hlen; omega
  rcases bs with _ | ⟨b5, bs⟩
  · simp only [List.length_cons, List.length_nil] at hlen; omega
  rcases bs with _ | ⟨b6, bs⟩
  · simp only [List.length_cons, List.length_nil] at hlen; omega
  rcases bs with _ | ⟨b7, bs⟩
  · simp only [List.length_cons, List.length_nil] at hlen; omega
  rcases bs with _ | ⟨b8, bs⟩
  · have h0 := h 0 (by omega)
    have h1 := h 1 (by omega)
    have h2 := h 2 (by omega)
    have h3 := h 3 (by omega)
    have h4 := h 4 (by omega)
    have h5 := h 5 (by omega)
    have h6 := h 6 (by omega)
    simp only [List.getD_cons_zero, List.getD_cons_succ] at h0 h1 h2 h3 h4 h5 h6
    simp only [wordOf, Nat.mul_zero, Nat.add_zero]
    exact has_null_byte_core (b0 % 256) (b1 % 256) (b2 % 256) (b3 % 256) (b4 % 256)
      (b5 % 256) (b6 % 256) (b7 % 256)
      (Nat.mod_lt _ (by norm_num)) (Nat.mod_lt _ (by norm_num))
      (Nat.mod_lt _ (by norm_num)) (Nat.mod_lt _ (by norm_num))
      (Nat.mod_lt _ (by norm_num)) (Nat.mod_lt _ (by norm_num))
      (Nat.mod_lt _ (by norm_num)) (Nat.mod_lt _ (by norm_num))
      h0 h1 h2 h3 h4 h5 h6
  · simp only [List.length_cons] at hlen; omega

theorem prescan_hit (v : List Nat) (hv : ∀ c ∈ v, c ≠ 0) :
    ∀ (k i : Nat), v.length + 1 ≤ k → prescan (v ++ [0]) k i = some (i + v.length) := by
  induction v with
  | nil =>
    intro k i hk
    obtain ⟨k, rfl⟩ : ∃ m, k = m + 1 := ⟨k - 1, by omega⟩
    simp [prescan]
  | cons c rest ih =>
    intro k i hk
    obtain ⟨k, rfl⟩ : ∃ m, k = m + 1 := ⟨k - 1, by simp only [List.length_cons] at hk; omega⟩
    have hc : c ≠ 0 := hv c (List.mem_cons_self c rest)
    have hrec := ih (fun x hx => hv x (List.mem_cons_of_mem c hx)) k (i + 1) (by
      simp only [List.length_cons] at hk; omega)
    simp only [List.cons_append, prescan, List.append_eq]
    rw [if_neg hc, hrec]
    simp only [List.length_cons, Option.some.injEq]
    omega

theorem prescan_miss (v s : List Nat) (hv : ∀ c ∈ v, c ≠ 0) :
    ∀ (k i : Nat), k ≤ v.length → prescan (v ++ s) k i = none := by
  induction v with
  | nil =>
    intro k i hk
    simp only [List.length_nil, Nat.le_zero] at hk
    subst hk
    cases s <;> rfl
  | cons c rest ih =>
    intro k i hk
    match k with
    | 0 => rfl
    | k + 1 =>
      have hc : c ≠ 0 := hv c (List.mem_cons_self c rest)
      simp only [List.cons_append, prescan, List.append_eq]
      rw [if_neg hc]
      exact ih (fun x hx => hv x (List.mem_cons_of_mem c hx)) k (i + 1) (by
        simp only [List.length_cons] at hk; omega)

theorem wordScan_none_of (s : List Nat) (offset : Nat) :
    ∀ (m k : Nat),
      (∀ t, t < m → has_null_byte (wordOf ((s.drop (offset + 8 * (k + t))).take 8)) = false) →
      wordScan s offset m k = none := by
  intro m
  induction m with
  | zero => intro k _; rfl
  | succ m ih =>
    intro k h
    have h0 := h 0 (by omega)
    simp only [Nat.add_zero] at h0
    simp only [wordScan]
    rw [if_neg (by simp [h0])]
    exact ih (k + 1) (fun t ht => by
      have := h (t + 1) (by omega)
      rwa [show k + (t + 1) = k + 1 + t by ring] at this)

theorem strlen_append_zero (v : List Nat) (hv : ∀ c ∈ v, c ≠ 0 ∧ c < 256) :
    strlen (v ++ [0]) = v.length := by
  have hvne : ∀ c ∈ v, c ≠ 0 := fun c h => (hv c h).1
  have hslen : (v ++ [0]).length = v.length + 1 := by simp
  by_cases hsmall : v.length + 1 < 8
  · have hoff : (v ++ [0]).length % WORD_SIZE = v.length + 1 := by
      rw [hslen]; unfold WORD_SIZE; omega
    simp only [strlen]
    rw [hoff, prescan_hit v hvne (v.length + 1) 0 (le_refl _)]
    simp
  · -- long case
    have hoff : (v ++ [0]).length % WORD_SIZE = (v.length + 1) % 8 := by
      rw [hslen]; rfl
    have hoffle : (v.length + 1) % 8 ≤ v.length := by omega
    simp only [strlen]
    rw [hoff, prescan_miss v [0] hvne ((v.length + 1) % 8) 0 hoffle]
    have hws : wordScan (v ++ [0]) ((v.length + 1) % 8)
        (((v ++ [0]).length - (v.length + 1) % 8) / WORD_SIZE) 0 = none := by
      apply wordScan_none_of
      intro t ht
      rw [hslen] at ht
      set off := (v.length + 1) % 8 with hoffdef
      have hdiv : (v.length + 1 - off) % 8 = 0 := by omega
      have hbound : off + 8 * (0 + t) + 8 ≤ v.length + 1 := by
        unfold WORD_SIZE at ht
        omega
      apply has_null_byte_window_false
      · simp only [List.length_take, List.length_drop, hslen]
        omega
      · intro j hj
        rw [getD_take_drop _ _ _ _ (by omega : j < 8)]
        have hidx : off + 8 * (0 + t) + j < v.length := by omega
        rw [getD_append_left 0 hidx]
        have hmem : v.getD (off + 8 * (0 + t) + j) 0 ∈ v := by
          rw [List.getD_eq_getElem?_getD, List.getElem?_eq_getElem hidx]
          exact List.getElem_mem hidx
        have := hv _ hmem
        rw [Nat.mod_eq_of_lt this.2]
        exact this.1
    rw [hws]
    have hlast : (v ++ [0]).getLast? = some 0 := by
      simp [List.getLast?_concat]
    simp [hlast]

@[simp] theorem Res.bind_ok {α β : Type} (a : α) (f : α → Res β) :
    Res.bind (.ok a) f = f a := rfl

@[simp] theorem Res.bind_err {α β : Type} (k : ErrorKind) (f : α → Res β) :
    Res.bind (.err k) f = .err k := rfl

@[simp] theorem Res.bind_panicked {α β : Type} (f : α → Res β) :
    Res.bind .panicked f = .panicked := rfl


/-! ### Set/get round-trip lemmas for the owned buffer -/


theorem growTo_length {α : Type} (l : List α) (i : Nat) (f : α) :
    (growTo l i f).length = max l.length (i + 1) := by
  simp [growTo]; omega

theorem getD_set_self {α : Type} (l : List α) (i : Nat) (v d : α) (h : i < l.length) :
    (l.set i v).getD i d = v := by
  simp [List.getD_eq_getElem?_getD, List.getElem?_set_self h]

theorem getD_set_ne {α : Type} (l : List α) (i j : Nat) (v d : α) (h : i ≠ j) :
    (l.set i v).getD j d = l.getD j d := by
  simp [List.getD_eq_getElem?_getD, List.getElem?_set_ne h]

theorem getD_growTo_fill {α : Type} (l : List α) (i j : Nat) (f : α) (h1 : l.length ≤ j) :
    (growTo l i f).getD j f = f := by
  rcases Nat.lt_or_ge j (growTo l i f).length with h | h
  · rw [growTo_length] at h
    simp only [growTo, List.getD_eq_getElem?_getD]
    rw [List.getElem?_append_right h1, List.getElem?_replicate]
    rw [if_pos (by omega)]
    rfl
  · exact List.getD_eq_default _ _ h

theorem set_boolean_roundtrip (b : TermInfoBuf) (i : Nat) (v : Bool) :
    (b.set_boolean i v).boolean i = v := by
  simp only [TermInfoBuf.set_boolean, TermInfoBuf.boolean]
  exact getD_set_self _ _ _ _ (by rw [growTo_length]; omega)

theorem set_boolean_growth (b : TermInfoBuf) (i j : Nat) (v : Bool)
    (h1 : b.bools.length ≤ j) (h2 : j < i) :
    (b.set_boolean i v).boolean j = false := by
  simp only [TermInfoBuf.set_boolean, TermInfoBuf.boolean]
  rw [getD_set_ne _ _ _ _ _ (by omega)]
  exact getD_growTo_fill _ _ _ _ h1

theorem set_number_roundtrip (b : TermInfoBuf) (i v : Nat) (hv : v ≠ 65535) :
    (b.set_number i v).number i = some v := by
  simp only [TermInfoBuf.set_number, TermInfoBuf.number]
  rw [getD_set_self _ _ _ _ (by rw [growTo_length]; omega), if_neg hv]

theorem set_number_growth (b : TermInfoBuf) (i j v : Nat)
    (h1 : b.numbers.length ≤ j) (h2 : j < i) :
    (b.set_number i v).number j = none := by
  simp only [TermInfoBuf.set_number, TermInfoBuf.number]
  rw [getD_set_ne _ _ _ _ _ (by omega), getD_growTo_fill _ _ _ _ h1, if_pos rfl]

theorem set_string_roundtrip (b : TermInfoBuf) (i : Nat) (v : List Nat)
    (hv : ∀ c ∈ v, c ≠ 0 ∧ c < 256) (hlen : b.strtab.length < 65534) :
    ((b.set_string i v).1).string i = some v := by
  simp only [TermInfoBuf.set_string]
  rw [if_neg (by omega)]
  simp only [TermInfoBuf.string]
  rw [getD_set_self _ _ _ _ (by rw [growTo_length]; omega)]
  have hdrop : (b.strtab ++ v ++ [0]).drop b.strtab.length = v ++ [0] := by
    rw [List.append_assoc]
    exact List.drop_left _ _
  simp only [strtab_get]
  rw [if_neg (by simp)]
  rw [hdrop, strlen_append_zero v hv, List.take_left]

theorem set_string_growth (b : TermInfoBuf) (i j : Nat) (v : List Nat)
    (h1 : b.strings.length ≤ j) (h2 : j < i)
    (h3 : b.strtab.length + v.length + 1 < 65535) :
    ((b.set_string i v).1).string j = none := by
  simp only [TermInfoBuf.set_string]
  by_cases hcap : b.strtab.length ≥ 65534
  · rw [if_pos hcap]
    simp only [TermInfoBuf.string]
    rw [getD_growTo_fill _ _ _ _ h1]
    simp only [strtab_get]
    rw [if_pos (by simp; omega)]
  · rw [if_neg hcap]
    simp only [TermInfoBuf.string]
    rw [getD_set_ne _ _ _ _ _ (by omega), getD_growTo_fill _ _ _ _ h1]
    simp only [strtab_get]
    rw [if_pos (by simp; omega)]

/-! ### View/owned-buffer getter agreement -/


theorem split_ok_sections (bytes : List Nat) (v : TermInfoView)
    (h : split_terminfo bytes = .ok v) :
    v.numbers.length % 2 = 0 ∧ v.strings.length % 2 = 0 := by
  unfold split_terminfo at h
  by_cases c1 : bytes.length < 12
  · rw [if_pos c1] at h; exact absurd h (by simp)
  rw [if_neg c1] at h
  by_cases c2 : read_le_u16 bytes 0 ≠ 0o432
  · rw [if_pos c2] at h; exact absurd h (by simp)
  rw [if_neg c2] at h
  by_cases c3 : base_expected bytes > bytes.length
  · rw [if_pos c3] at h; exact absurd h (by simp)
  rw [if_neg c3] at h
  by_cases c4 : base_names_size bytes = 0
  · rw [if_pos c4] at h; exact absurd h (by simp)
  rw [if_neg c4] at h
  by_cases c5 : base_names_size bytes - 1 > (base_slice0 bytes).length
  · rw [if_pos c5] at h; exact absurd h (by simp)
  rw [if_neg c5] at h
  by_cases c6 : base_names_size bytes > (base_slice0 bytes).length
  · rw [if_pos c6] at h; exact absurd h (by simp)
  rw [if_neg c6] at h
  by_cases c7 : base_bools_count bytes > (base_slice1 bytes).length
  · rw [if_pos c7] at h; exact absurd h (by simp)
  rw [if_neg c7] at h
  by_cases c8 : base_boolSkip bytes > (base_slice1 bytes).length
  · rw [if_pos c8] at h; exact absurd h (by simp)
  rw [if_neg c8] at h
  by_cases c9 : base_numbers_count bytes * 2 > (base_slice2 bytes).length
  · rw [if_pos c9] at h; exact absurd h (by simp)
  rw [if_neg c9] at h
  by_cases c10 : base_strings_count bytes * 2 > (base_slice3 bytes).length
  · rw [if_pos c10] at h; exact absurd h (by simp)
  rw [if_neg c10] at h
  by_cases c11 : base_strtab_size bytes > (base_slice4 bytes).length
  · rw [if_pos c11] at h; exact absurd h (by simp)
  rw [if_neg c11] at h
  by_cases c12 : base_strtabSkip bytes > (base_slice4 bytes).length
  · rw [if_pos c12] at h; exact absurd h (by simp)
  rw [if_neg c12] at h
  by_cases c13 : base_expected bytes < bytes.length
  · rw [if_pos c13] at h
    cases hext : split_terminfo_ext (base_slice5 bytes) with
    | ok e =>
      rw [hext] at h
      injection h with h'
      subst h'
      constructor <;> simp only [List.length_take] <;> omega
    | err k => rw [hext] at h; exact absurd h (by simp)
    | panicked => rw [hext] at h; exact absurd h (by simp)
  · rw [if_neg c13] at h
    injection h with h'
    subst h'
    constructor <;> simp only [List.length_take] <;> omega



theorem leU16Chunks_length (l : List Nat) : (leU16Chunks l).length = (l.length + 1) / 2 := by
  induction l using leU16Chunks.induct <;> (simp [leU16Chunks, *]; try omega)

theorem leU16Chunks_getD (l : List Nat) (i : Nat) (he : l.length % 2 = 0)
    (hi : 2 * i < l.length) :
    (leU16Chunks l).getD i 65535 =
      l.getD (2 * i) 0 % 256 + 256 * (l.getD (2 * i + 1) 0 % 256) := by
  induction l using leU16Chunks.induct generalizing i with
  | case1 a b rest ih =>
    cases i with
    | zero => simp [leU16Chunks]
    | succ i =>
      simp only [leU16Chunks, List.getD_cons_succ]
      rw [ih i (by simp at he; omega) (by simp at hi; omega)]
      rw [show 2 * (i + 1) = 2 * i + 1 + 1 by ring]
      simp [List.getD_cons_succ]
  | case2 a => simp at he
  | case3 => simp at hi

theorem leU16Chunks_getD_out (l : List Nat) (i : Nat) (hi : l.length ≤ 2 * i) :
    (leU16Chunks l).getD i 65535 = 65535 := by
  apply List.getD_eq_default
  rw [leU16Chunks_length]
  omega

theorem boolean_agree (t : TermInfoView) (i : Nat) :
    TermInfo.boolean t i = (from_terminfo t).boolean i := by
  simp only [TermInfo.boolean, from_terminfo, TermInfoBuf.boolean]
  by_cases hi : i < t.bools.length
  · rw [if_pos hi]
    rw [List.getD_eq_getElem?_getD, List.getD_eq_getElem?_getD, List.getElem?_map]
    rw [List.getElem?_eq_getElem hi]
    simp
  · rw [if_neg hi]
    rw [List.getD_eq_default]
    simp only [List.length_map]
    omega

theorem number_agree (t : TermInfoView) (i : Nat) (he : t.numbers.length % 2 = 0) :
    TermInfo.number t i = (from_terminfo t).number i := by
  simp only [TermInfo.number, from_terminfo, TermInfoBuf.number]
  by_cases hi : i * 2 < t.numbers.length
  · rw [if_pos hi]
    rw [leU16Chunks_getD _ _ he (by omega)]
    have hlen2 : ¬ t.numbers.length < 2 := by omega
    simp only [read_le_u16, if_neg hlen2]
    split <;> simp_all
  · rw [if_neg hi]
    rw [leU16Chunks_getD_out _ _ (by omega)]
    simp

theorem string_agree (t : TermInfoView) (i : Nat)
    (he : t.strings.length % 2 = 0)
    (hlen : t.strtab.length < 65535)
    (hoff : ∀ j, 2 * j < t.strings.length → read_le_u16 t.strings j ≠ 65535 →
      read_le_u16 t.strings j ≤ t.strtab.length) :
    TermInfo.string t i = .ok ((from_terminfo t).string i) := by
  simp only [TermInfo.string, from_terminfo, TermInfoBuf.string]
  by_cases hi : i * 2 < t.strings.length
  · rw [if_pos hi]
    have hchunk := leU16Chunks_getD t.strings i he (by omega)
    have hread : read_le_u16 t.strings i =
        t.strings.getD (2 * i) 0 % 256 + 256 * (t.strings.getD (2 * i + 1) 0 % 256) := by
      simp only [read_le_u16, if_neg (show ¬ t.strings.length < 2 by omega)]
    rw [hchunk, ← hread]
    by_cases hff : read_le_u16 t.strings i = 65535
    · rw [if_neg (by simp [hff]), hff]
      simp only [strtab_get]
      rw [if_pos (by omega)]
    · rw [if_pos hff]
      have hle := hoff i (by omega) hff
      simp only [strtab_get]
      rw [if_neg (by omega)]
  · rw [if_neg hi]
    rw [leU16Chunks_getD_out _ _ (by omega)]
    simp only [strtab_get]
    rw [if_pos (by omega)]

/-! ## Claim theorems -/

/-- Claim C5 counterexample: a buffer `TermInfo::parse` accepts on which the
two layers disagree.  `danglingOffsetFile` stores string offset 5 with an
empty string table; the view's `string(0)` hits the `.unwrap()` of the
out-of-range table read and panics, while the owned buffer's `string(0)`
swallows the table error and returns `None`. -/
theorem view_buf_disagree_on_dangling_offset :
    split_terminfo danglingOffsetFile = .ok danglingOffsetView ∧
    TermInfo.string danglingOffsetView 0 = .panicked ∧
    (from_terminfo danglingOffsetView).string 0 = none := by
  decide

/-- Claim C5 (amended): on every buffer `TermInfo::parse` accepts whose
string table is shorter than `0xFFFF` bytes and whose stored string offsets
(other than the absent sentinel) lie within the string table, the zero-copy
view and the owned buffer agree at every capability index: `boolean` and
`number` return identical results (the owned value is the u16 widened), and
`string` returns the same bytes (and agrees on absence). -/
theorem view_buf_getters_agree :
    ∀ (bytes : List Nat) (v : TermInfoView), split_terminfo bytes = .ok v →
      v.strtab.length < 65535 →
      (∀ j, 2 * j < v.strings.length → read_le_u16 v.strings j ≠ 65535 →
        read_le_u16 v.strings j ≤ v.strtab.length) →
      ∀ i, TermInfo.boolean v i = (from_terminfo v).boolean i ∧
        TermInfo.number v i = (from_terminfo v).number i ∧
        TermInfo.string v i = .ok ((from_terminfo v).string i) := by
  intro bytes v h hlen hoff i
  obtain ⟨hne, hse⟩ := split_ok_sections bytes v h
  exact ⟨boolean_agree v i, number_agree v i hne, string_agree v i hse hlen hoff⟩

/-- Concrete instantiation of the getter agreement on `tinyOkFile`. -/
theorem view_buf_getters_agree_witness :
    TermInfo.boolean tinyOkView 0 = (from_terminfo tinyOkView).boolean 0 ∧
    TermInfo.number tinyOkView 0 = (from_terminfo tinyOkView).number 0 ∧
    TermInfo.string tinyOkView 0 = .ok ((from_terminfo tinyOkView).string 0) :=
  view_buf_getters_agree tinyOkFile tinyOkView (by decide) (by decide)
    (fun j hj _ => absurd hj (by simp [tinyOkView])) 0


/-- Claim C6 counterexample: two set/get round-trips that fail as the claim
is stated.  `set_number` with the value `0xFFFF` reads back as absent
(`number` treats the stored value as the sentinel), and `set_string` with a
value containing an interior NUL reads back truncated at that NUL. -/
theorem set_get_roundtrip_counterexample :
    (TermInfoBuf.empty.set_number 3 65535).number 3 = none ∧
    ((TermInfoBuf.empty.set_string 0 [65, 0, 66]).1).string 0 = some [65] := by
  decide

/-- Claim C6 (amended): `set_*` followed by the matching getter yields the
value — for booleans always, for numbers whenever the value is not the
`0xFFFF` absence sentinel, and for strings whenever the value is NUL-free
(u8 bytes) and the string table is below its offset cap — and setting beyond
the current length grows the array with the absence sentinel (`false` /
`0xFFFF`), so the indices in between read as absent (for strings, provided
the table stays shorter than `0xFFFF` so the sentinel offset stays out of
range). -/
theorem set_get_roundtrip_amended :
    (∀ (b : TermInfoBuf) (i : Nat) (v : Bool), (b.set_boolean i v).boolean i = v) ∧
    (∀ (b : TermInfoBuf) (i j : Nat) (v : Bool), b.bools.length ≤ j → j < i →
      (b.set_boolean i v).boolean j = false) ∧
    (∀ (b : TermInfoBuf) (i v : Nat), v ≠ 65535 → (b.set_number i v).number i = some v) ∧
    (∀ (b : TermInfoBuf) (i j v : Nat), b.numbers.length ≤ j → j < i →
      (b.set_number i v).number j = none) ∧
    (∀ (b : TermInfoBuf) (i : Nat) (v : List Nat), (∀ c ∈ v, c ≠ 0 ∧ c < 256) →
      b.strtab.length < 65534 → ((b.set_string i v).1).string i = some v) ∧
    (∀ (b : TermInfoBuf) (i j : Nat) (v : List Nat), b.strings.length ≤ j → j < i →
      b.strtab.length + v.length + 1 < 65535 → ((b.set_string i v).1).string j = none) :=
  ⟨set_boolean_roundtrip, set_boolean_growth, set_number_roundtrip, set_number_growth,
   set_string_roundtrip, set_string_growth⟩

/-- Concrete instantiation of the amended set/get round-trip: number 7 at
index 2 and the string `Hi` at index 1 on a fresh buffer. -/
theorem set_get_roundtrip_amended_witness :
    (TermInfoBuf.empty.set_number 2 7).number 2 = some 7 ∧
    ((TermInfoBuf.empty.set_string 1 [72, 105]).1).string 1 = some [72, 105] :=
  ⟨set_get_roundtrip_amended.2.2.1 TermInfoBuf.empty 2 7 (by decide),
   set_get_roundtrip_amended.2.2.2.2.1 TermInfoBuf.empty 1 [72, 105] (by decide) (by decide)⟩


/-- Claim C1: executing the 8-color `SetAForeground` template with argument
3 does *not* succeed with `"\x1b[33m"`: the parser has no `%[N]`
literal-integer arm, so `%[8]` falls into the printf arm and
`PrintfArgs::parse` rejects the opening brace — the evaluation fails with
`BadPrintfSpecifier` (the repository's own test asserts the successful
output, so the code contradicts its tests). -/
theorem sgr_template_fails_bad_printf :
    run_capability sgrTemplate [Argument.int 3] = .err .BadPrintfSpecifier := by
  decide

/-- Claim C2: `tic16File` is sized exactly as its header declares
(`specBaseSize 2 2 0 0 0 = 16 = length`, no padding byte since
`names_len + bool_count` is even), yet `split_terminfo` rejects it with
`IncompleteTermInfo`: the source's padding condition
`bools_count + names_size % 2 != 0` parenthesises as
`bools_count + (names_size % 2)`, which over-counts the expected size by one
whenever `bools_count > 0` and `names_len + bool_count` is even. -/
theorem tic_file_wrongly_rejected :
    read_le_u16 tic16File 1 = 2 ∧ read_le_u16 tic16File 2 = 2 ∧
    read_le_u16 tic16File 3 = 0 ∧ read_le_u16 tic16File 4 = 0 ∧
    read_le_u16 tic16File 5 = 0 ∧
    specBaseSize 2 2 0 0 0 = tic16File.length ∧
    split_terminfo tic16File = .err .IncompleteTermInfo := by
  decide

/-- Claim C3: on sixteen nonzero bytes with a single NUL at index 7 — the
most-significant byte of the first machine word — `strlen` returns 16 while
the byte-wise scan (`find_zero`, the source's own reference loop) finds the
NUL at index 7: `HI_BITS = (isize::MIN as usize)/255 = 0x0080808080808080`
lacks the top bit of the most-significant byte, so `has_null_byte` misses a
NUL there and only the `s.last()` fallback (inapplicable here) can recover
it. -/
theorem strlen_misses_msb_nul :
    strlen msbNulBytes = 16 ∧ find_zero msbNulBytes = 7 ∧ msbNulBytes.getD 7 1 = 0 := by
  decide

/-- Claim C4: the binary opcodes apply the operator to the operands in
popped order (`f(top, below) = f(right, left)`), not `left ∘ right`:
`%p1%p2%-%d` with 30 and 2 prints `-28` (the bytes `[45,50,56]`) instead of
`28`, and `%p1%p2%<%d` with 1 and 2 evaluates `2 < 1`, pushing 0 — which the
formatter prints as the empty string — instead of printing `1`. -/
theorem binary_ops_operand_order_reversed :
    run_capability subTemplate [Argument.int 30, Argument.int 2] = .ok [45, 50, 56] ∧
    run_capability lessTemplate [Argument.int 1, Argument.int 2] = .ok [] := by
  decide

/-- Claim C7: `set_ext_*` does not store through an existing name, and
appending a second fresh name panics.  Setting extended number `"a"` to 1
and then to 2 leaves 1 in place: the overwrite arm writes to the *base*
number table under the strict guard `x > xoff`, which no-ops for the first
extended entry.  And two successive fresh `set_ext_boolean` names panic in
`Vec::insert`, because the insertion index `ext.bools.len()` (after the
push) exceeds the name array's length. -/
theorem set_ext_overwrite_and_append_broken :
    Res.bind (TermInfoBuf.empty.set_ext_number [97] 1)
      (fun b => Res.bind (b.set_ext_number [97] 2)
        (fun b2 => .ok (b2.ext_number [97]))) = .ok (some 1) ∧
    Res.bind (TermInfoBuf.empty.set_ext_boolean [97] true)
      (fun b => b.set_ext_boolean [98] true) = .panicked := by
  decide

/-- Claim C8: the printf-subset formatter reproduces every literal
expectation of the spec (flags are written after the `:` marker the grammar
uses, as the spec's own `% d` gloss notes): `d`∘12 = `12`, `: d`∘12 = ` 12`,
`:-5d`∘21 = `21␣␣␣`, `.1d`∘21 = `2`, `.4s`∘`Crop Me` = `Crop`,
`9.4s`∘`Crop Me` = `␣␣␣␣␣Crop`, and `:-9.4d`∘99999 = `9999␣␣␣␣␣`. -/
theorem printf_literal_expectations :
    printfFormat [100] (some (.int 12)) = .ok [49, 50] ∧
    printfFormat [58, 32, 100] (some (.int 12)) = .ok [32, 49, 50] ∧
    printfFormat [58, 45, 53, 100] (some (.int 21)) = .ok [50, 49, 32, 32, 32] ∧
    printfFormat [46, 49, 100] (some (.int 21)) = .ok [50] ∧
    printfFormat [46, 52, 115] (some (.str [67, 114, 111, 112, 32, 77, 101])) =
      .ok [67, 114, 111, 112] ∧
    printfFormat [57, 46, 52, 115] (some (.str [67, 114, 111, 112, 32, 77, 101])) =
      .ok [32, 32, 32, 32, 32, 67, 114, 111, 112] ∧
    printfFormat [58, 45, 57, 46, 52, 100] (some (.int 99999)) =
      .ok [57, 57, 57, 57, 32, 32, 32, 32, 32] := by
  decide

/-- Claim C9: neither entry point is panic-free.  A capability string ending
in `%?` drives `parse_until` to read `self.slice[0]` of an empty slice (an
out-of-bounds panic), and a header declaring a zero-length names section
drives `split_terminfo` into the `names_size - 1` usize underflow — both
abort instead of returning a typed error value. -/
theorem parse_entry_points_panic :
    parseOps [37, 63] = .panicked ∧ split_terminfo zeroNamesFile = .panicked := by
  decide

/-- Claim C10: `Op::Div` and `Op::Mod` divide with the raw `/` and `%` of
`i64`; when the second-popped operand is 0 the evaluation aborts by division
by zero for every stack, argument table, instruction tail and output prefix
— and concretely, `%p1%p2%/%d` with arguments 0 and 5 panics (parameter 1 is
pushed first, so it is the divisor). -/
theorem div_mod_by_zero_panic :
    (∀ (fuel : Nat) (x : Int) (st : List Argument) (args : List (Option Argument))
       (rest : List Op) (out : List Nat),
       exec (fuel + 1) ⟨Argument.int x :: Argument.int 0 :: st, args⟩ (Op.div :: rest) out =
         .panicked ∧
       exec (fuel + 1) ⟨Argument.int x :: Argument.int 0 :: st, args⟩ (Op.mod :: rest) out =
         .panicked) ∧
    run_capability divTemplate [Argument.int 0, Argument.int 5] = .panicked := by
  refine ⟨fun fuel x st args rest out => ⟨?_, ?_⟩, by decide⟩ <;>
    simp [exec, ExecEnv.map_integer2, ExecEnv.pop_integer, ExecEnv.pop, Res.bind]

end Nixterm
